import Mathlib

/-!
Verification of the untdl-harvest OAI client (src/untdl_harvest/oai.py)
against its natural-language specification.

The development shallowly embeds the Python module: the XML wrapper
(ETreeXmlDoc), the querystring builder, and the Endpoint/Harvester state
machine (get_page, _handle_http_error, _catch_and_handle_oai_error,
compile_data, get_record).  Machine-level Python behaviours that the code
relies on (attribute lookup, str.join over non-strings, len() on arbitrary
objects) are modelled explicitly where a claim depends on them.
-/

namespace UntdlHarvest

/-- Python exceptions that the modelled code paths can raise.
typeError models a TypeError (e.g. str.join applied to ints, or len()
applied to an object without a length); attributeError models attribute
lookup failure; valueError carries the message of a ValueError;
parseError stands for xml.etree ParseError. -/
inductive PyExn where
  | endpointError (msg : String)
  | typeError
  | attributeError
  | valueError (msg : String)
  | parseError
  deriving Repr, DecidableEq

/-- An XML element as in xml.etree.ElementTree: a tag, optional text,
optional tail text (the cdata standing between this element's closing
tag and the next tag) and a list of child elements.  Attributes are
not used by the harvested documents the claims quantify over and are
not modelled. -/
inductive XmlElem where
  | mk (tag : String) (text : Option String) (tail : Option String)
      (children : List XmlElem)
  deriving Repr

def XmlElem.tag : XmlElem → String
  | .mk t _ _ _ => t

def XmlElem.text : XmlElem → Option String
  | .mk _ t _ _ => t

def XmlElem.tail : XmlElem → Option String
  | .mk _ _ t _ => t

def XmlElem.children : XmlElem → List XmlElem
  | .mk _ _ _ c => c

/-- Replaces the tail of an element (as the parser does when cdata
follows a closing tag). -/
def XmlElem.withTail : XmlElem → Option String → XmlElem
  | .mk tag text _ children, tl => .mk tag text tl children

mutual

def XmlElem.decEq (a b : XmlElem) : Decidable (a = b) :=
  match a, b with
  | .mk t1 x1 l1 c1, .mk t2 x2 l2 c2 =>
    if h1 : t1 = t2 then
      if h2 : x1 = x2 then
        if h4 : l1 = l2 then
          match XmlElem.decEqList c1 c2 with
          | isTrue h3 => isTrue (by rw [h1, h2, h3, h4])
          | isFalse h3 => isFalse (by intro h; injection h; contradiction)
        else isFalse (by intro h; injection h; contradiction)
      else isFalse (by intro h; injection h; contradiction)
    else isFalse (by intro h; injection h; contradiction)

def XmlElem.decEqList (as bs : List XmlElem) : Decidable (as = bs) :=
  match as, bs with
  | [], [] => isTrue rfl
  | _ :: _, [] => isFalse (by intro h; injection h)
  | [], _ :: _ => isFalse (by intro h; injection h)
  | a :: as2, b :: bs2 =>
    match XmlElem.decEq a b, XmlElem.decEqList as2 bs2 with
    | isTrue h1, isTrue h2 => isTrue (by rw [h1, h2])
    | isFalse h1, _ => isFalse (by intro h; injection h; contradiction)
    | _, isFalse h2 => isFalse (by intro h; injection h; contradiction)

end

instance : DecidableEq XmlElem := XmlElem.decEq

mutual

/-- Model of Element.iter(): the element itself followed by all descendants
in document order. -/
def XmlElem.iterAll : XmlElem → List XmlElem
  | .mk tag text tail children => .mk tag text tail children :: iterAllList children

def iterAllList : List XmlElem → List XmlElem
  | [] => []
  | e :: es => XmlElem.iterAll e ++ iterAllList es

end

/-- Characters accepted in a (possibly namespace-expanded) tag name by the
model serializer and parser; braces appear in ElementTree's expanded
Clark-notation tags. -/
def isNameChar (c : Char) : Bool :=
  c.isAlpha || c.isDigit || c = ':' || c = '_' || c = '-' || c = '.' ||
    c = '/' || c = Char.ofNat 123 || c = Char.ofNat 125

/-- XML-escapes one text character the way ElementTree escapes cdata. -/
def escapeChar (c : Char) : List Char :=
  if c = '&' then "&amp;".toList
  else if c = '<' then "&lt;".toList
  else if c = '>' then "&gt;".toList
  else [c]

def escapeText (s : List Char) : List Char := s.flatMap escapeChar

/-- Inverse of escapeText, as performed by the XML parser on cdata: the
three entities the serializer emits are mapped back; any other
ampersand use is rejected. -/
def unescapeText : List Char → Option (List Char)
  | [] => some []
  | c :: rest =>
    if c = '&' then
      match rest with
      | 'a' :: 'm' :: 'p' :: ';' :: rest2 =>
        (unescapeText rest2).map (fun t => '&' :: t)
      | 'l' :: 't' :: ';' :: rest2 =>
        (unescapeText rest2).map (fun t => '<' :: t)
      | 'g' :: 't' :: ';' :: rest2 =>
        (unescapeText rest2).map (fun t => '>' :: t)
      | _ => none
    else (unescapeText rest).map (fun t => c :: t)

mutual

/-- Serialization of one element without its own tail: open tag, escaped
text, serialized children, close tag.  Each child contributes its own
tail, exactly as CPython _serialize_xml writes it. -/
def serCore : XmlElem → List Char
  | .mk tag text _ children =>
      [ '<' ] ++ tag.toList ++ [ '>' ] ++ escapeText ((text.getD "").toList) ++
        serList children ++ [ '<', '/' ] ++ tag.toList ++ [ '>' ]

def serList : List XmlElem → List Char
  | [] => []
  | e :: es =>
      serCore e ++ escapeText (((XmlElem.tail e).getD "").toList) ++ serList es

end

mutual

/-- Fuel bound under which the parser is proved to reproduce an element. -/
def sizeE : XmlElem → Nat
  | .mk _ _ _ children => 1 + sizeL children

def sizeL : List XmlElem → Nat
  | [] => 1
  | e :: es => 1 + sizeE e + sizeL es

end

mutual

/-- Model of the XML parser underlying ET.fromstring, over the element
grammar the serializer emits: an open tag, optional cdata, child
elements interleaved with their tails, and a matching close tag.
Empty cdata parses to no text (Element.text is None), as in
ElementTree; the parsed element's own tail is owned by the caller and
is none here. -/
def parseElem : Nat → List Char → Option (XmlElem × List Char)
  | 0, _ => none
  | fuel + 1, s =>
    match s with
    | [] => none
    | c :: rest =>
      if c = '<' then
        let tagChars := rest.takeWhile isNameChar
        if tagChars.isEmpty then none
        else
          match rest.drop tagChars.length with
          | [] => none
          | c2 :: rest2 =>
            if c2 = '>' then
              let textChars := rest2.takeWhile (fun d => d != '<')
              match unescapeText textChars with
              | none => none
              | some utext =>
                match parseChildren fuel (rest2.drop textChars.length) with
                | none => none
                | some (children, rest3) =>
                  match rest3 with
                  | '<' :: '/' :: rest4 =>
                    if tagChars.isPrefixOf rest4 then
                      match rest4.drop tagChars.length with
                      | '>' :: rest5 =>
                        some (XmlElem.mk tagChars.asString
                          (if utext.isEmpty then none else some utext.asString)
                          none children, rest5)
                      | _ => none
                    else none
                  | _ => none
            else none
      else none
  termination_by structural fuel _ => fuel

/-- Parses a maximal sequence of sibling elements, stopping at a closing
tag.  The cdata standing after each sibling's closing tag becomes that
sibling's tail (TreeBuilder assigns trailing data to the last closed
element); an empty run gives a tail of None. -/
def parseChildren : Nat → List Char → Option (List XmlElem × List Char)
  | 0, _ => none
  | fuel + 1, s =>
    match s with
    | c :: c2 :: rest =>
      if c = '<' then
        if c2 = '/' then some ([], c :: c2 :: rest)
        else
          match parseElem fuel (c :: c2 :: rest) with
          | none => none
          | some (e, s1) =>
            let tailChars := s1.takeWhile (fun d => d != '<')
            match unescapeText tailChars with
            | none => none
            | some utail =>
              match parseChildren fuel (s1.drop tailChars.length) with
              | none => none
              | some (es, s2) =>
                some (e.withTail
                  (if utail.isEmpty then none else some utail.asString) :: es, s2)
      else none
    | _ => none
  termination_by structural fuel _ => fuel

end

instance {ε α : Type} [DecidableEq ε] [DecidableEq α] :
    DecidableEq (Except ε α) := fun a b =>
  match a, b with
  | .ok x, .ok y =>
    if h : x = y then isTrue (by rw [h])
    else isFalse (by intro hh; injection hh; contradiction)
  | .error x, .error y =>
    if h : x = y then isTrue (by rw [h])
    else isFalse (by intro hh; injection hh; contradiction)
  | .ok _, .error _ => isFalse (fun hh => Except.noConfusion hh)
  | .error _, .ok _ => isFalse (fun hh => Except.noConfusion hh)

/-- Tag validity for the round-trip theorem: nonempty and made of name
characters (true of every tag ElementTree can parse). -/
def validTag (s : String) : Bool :=
  match s.toList with
  | [] => false
  | c :: cs => (c != '/') && ((c :: cs).all isNameChar)

mutual

/-- Well-formedness of a parsed tree: valid tags throughout, and no
element carries the empty string as text or tail (ET.fromstring
yields None there), recursively. -/
def wfElem : XmlElem → Bool
  | .mk tag text tail children =>
      validTag tag && (text != some "") && (tail != some "") && wfList children

def wfList : List XmlElem → Bool
  | [] => true
  | e :: es => wfElem e && wfList es

end

/-- Model of ET.fromstring: the whole input must be exactly one element. -/
def fromstringModel (s : String) : Except PyExn XmlElem :=
  match parseElem (s.length + 1) s.toList with
  | some (t, []) => .ok t
  | _ => .error .parseError

def lbrace : String := "\x7b"

def rbrace : String := "\x7d"

/-- Wrapper class ETreeXmlDoc: a tree node plus the namespace mapping. -/
structure ETreeXmlDoc where
  root : XmlElem
  namespaces : List (String × String)
  deriving Repr, DecidableEq

/-- Python str.split on the colon: every colon separates a part. -/
def splitOnColon : List Char → List (List Char)
  | [] => [[]]
  | c :: rest =>
    if c = ':' then [] :: splitOnColon rest
    else
      match splitOnColon rest with
      | [] => [[c]]
      | h :: t => (c :: h) :: t

/-- ETreeXmlDoc.expand_tagname: expands a tagname that uses a namespace
prefix.  split(':') with other than two parts, like the KeyError on an
unknown prefix, surfaces as a ValueError. -/
def ETreeXmlDoc.expand_tagname (doc : ETreeXmlDoc) (tagname : Option String) :
    Except PyExn (Option String) :=
  match tagname with
  | none => .ok none
  | some t =>
    if t.toList.contains ':' then
      match splitOnColon t.toList with
      | [pfxChars, fieldChars] =>
        match doc.namespaces.lookup pfxChars.asString with
        | some ns => .ok (some (lbrace ++ ns ++ rbrace ++ fieldChars.asString))
        | none =>
          .error (.valueError ("Unknown namespace prefix in \x27" ++ t ++ "\x27"))
      | _ => .error (.valueError "too many values to unpack (expected 2)")
    else .ok (some t)

/-- The per-element test made inside find_tag / findall_tag: the element
is produced by root.iter(expanded) (tag filter) and passes the optional
text comparison text == el.text. -/
def tagTextMatch (expanded : Option String) (text : Option String)
    (el : XmlElem) : Bool :=
  (match expanded with
   | none => true
   | some t => el.tag == t) &&
  (match text with
   | none => true
   | some s => el.text == some s)

/-- ETreeXmlDoc.find_tag: first matching element by tag, as the for-loop
with early return over root.iter(...). -/
def ETreeXmlDoc.find_tag (doc : ETreeXmlDoc) (tag : Option String)
    (text : Option String := none) : Except PyExn (Option ETreeXmlDoc) :=
  match doc.expand_tagname tag with
  | .error e => .error e
  | .ok expanded =>
    .ok (((doc.root.iterAll).find? (tagTextMatch expanded text)).map
      (fun el => ⟨el, doc.namespaces⟩))

/-- ETreeXmlDoc.findall_tag: all matching elements by tag, in document
order (the generator, run to completion). -/
def ETreeXmlDoc.findall_tag (doc : ETreeXmlDoc) (tag : Option String)
    (text : Option String := none) : Except PyExn (List ETreeXmlDoc) :=
  match doc.expand_tagname tag with
  | .error e => .error e
  | .ok expanded =>
    .ok (((doc.root.iterAll).filter (tagTextMatch expanded text)).map
      (fun el => ⟨el, doc.namespaces⟩))

/-- make_querystring(verb, arguments): verb plus the arguments whose value
is not None, insertion order, ampersand-joined, behind a question mark.
Arguments model a Python dict as an insertion-ordered association list. -/
def make_querystring (verb : String) (arguments : List (String × Option String)) :
    String :=
  let pairs := ("verb", some verb) :: arguments
  let qstring := String.intercalate "&"
    ((pairs.filter (fun p => p.2.isSome)).map
      (fun p => p.1 ++ "=" ++ p.2.getD ""))
  "?" ++ qstring

/-- One HTTP error observed while contacting the server.  code models the
integer status of urllib HTTPError; retryAfter models the Retry-After
header after the int() parse the code applies (absent header modelled
as none and read back as -1). -/
structure HTTPErrorObj where
  code : Nat
  retryAfter : Option Int
  deriving Repr, DecidableEq

/-- One scripted server behaviour for one request: a body whose zlib
decompression fails (so the code uses it as-is) and that decodes as
UTF-8, or an HTTP error. -/
inductive ServerResponse where
  | ok (body : String)
  | err (code : Nat) (retryAfter : Option Int)
  deriving Repr, DecidableEq

/-- Mutable state of an Endpoint object as set up by Endpoint.__init__,
plus two ghost observers: requests logs every req_url get_page builds,
and total_slept accumulates every time.sleep the code performs. -/
structure EndpointState where
  url : String
  verbose : Bool
  sleep_time : Int
  max_recoveries : Int
  num_recoveries : Int
  raw_bytes : Nat
  data_bytes : Nat
  default_recovery_time : Int
  http_errors : List HTTPErrorObj
  oai_error : Option (String × String)
  namespaces : List (String × String)
  last_page : Option ETreeXmlDoc
  requests : List String
  total_slept : Int
  deriving Repr, DecidableEq

/-- Endpoint.__init__ for a plain URL argument (the aliasing branch taken
for an argument that itself has a url attribute is modelled separately
at the attribute level, see endpointNewAttrNames). -/
def endpointInit (url : String)
    (namespaces : Option (List (String × String)) := none)
    (verbose : Bool := true) (sleep_time : Int := 0)
    (max_recoveries : Int := 3) : EndpointState :=
  let ns0 := match namespaces with
    | none => []
    | some l => l
  let ns := if (ns0.lookup "oai").isSome then ns0
    else ns0 ++ [("oai", "http://www.openarchives.org/OAI/2.0/")]
  { url := url, verbose := verbose, sleep_time := sleep_time,
    max_recoveries := max_recoveries, num_recoveries := 0,
    raw_bytes := 0, data_bytes := 0, default_recovery_time := 60,
    http_errors := [], oai_error := none, namespaces := ns,
    last_page := none, requests := [], total_slept := 0 }

/-- Endpoint._bail.  Its first statement joins the integer code attributes
of the accumulated HTTP errors with str.join, which raises TypeError
whenever the list is nonempty; only with no accumulated HTTP errors
does control reach the raise of EndpointError. -/
def bailExn (st : EndpointState) (why_bail : Option String) : PyExn :=
  if st.http_errors.isEmpty then
    .endpointError
      ("Encountered fatal errors while contacting the OAI server." ++
        (match why_bail with
         | some w => " " ++ w
         | none => "") ++
        (match st.oai_error with
         | some (c, m) => " OAI Error: code=" ++ c ++ " \x27" ++ m ++ "\x27"
         | none => ""))
  else .typeError

/-- Outcome of Endpoint._handle_http_error just before its final
recursive get_page call: bail out with an exception, or retry with the
updated state and the computed wait. -/
inductive HandleResult where
  | bailNow (e : PyExn) (st : EndpointState)
  | retry (st : EndpointState) (wait : Int)
  deriving Repr, DecidableEq

/-- Endpoint._handle_http_error up to the recursive call: appends the
error; for a 503 reads Retry-After (absent read as -1); otherwise bails
once num_recoveries has reached max_recoveries, else increments
max_recoveries (the code mutates the budget, never the counter) and
uses the default wait; a negative wait disables retries and bails. -/
def handleHttpError (st : EndpointState) (error : HTTPErrorObj) : HandleResult :=
  let st1 := { st with http_errors := st.http_errors ++ [error] }
  if error.code = 503 then
    let retry_wait := error.retryAfter.getD (-1)
    if retry_wait < 0 then
      .bailNow (bailExn st1 (some "Retries are disabled.")) st1
    else .retry st1 retry_wait
  else
    if st1.num_recoveries ≥ st1.max_recoveries then
      .bailNow (bailExn st1 (some "Exceeded max number of recovery attempts.")) st1
    else
      let st2 := { st1 with max_recoveries := st1.max_recoveries + 1 }
      let retry_wait := st2.default_recovery_time
      if retry_wait < 0 then
        .bailNow (bailExn st2 (some "Retries are disabled.")) st2
      else .retry st2 retry_wait

/-- Result of running a modelled Endpoint operation against a finite list
of scripted server responses: a value with the final state and the
unconsumed responses; a raised Python exception likewise; fuel
exhaustion (the modelled recursion exceeded the bound); or a request
issued past the end of the script. -/
inductive Outcome (α : Type) where
  | ok (v : α) (st : EndpointState) (rest : List ServerResponse)
  | raised (e : PyExn) (st : EndpointState) (rest : List ServerResponse)
  | fuelOut
  | serverExhausted
  deriving Repr, DecidableEq

def Outcome.exnOf {α : Type} : Outcome α → Option PyExn
  | .raised e _ _ => some e
  | _ => none

def Outcome.valOf {α : Type} : Outcome α → Option α
  | .ok v _ _ => some v
  | _ => none

def Outcome.stateOf {α : Type} : Outcome α → Option EndpointState
  | .ok _ st _ => some st
  | .raised _ st _ => some st
  | _ => none

def Outcome.restOf {α : Type} : Outcome α → Option (List ServerResponse)
  | .ok _ _ r => some r
  | .raised _ _ r => some r
  | _ => none

/-- Splits off the text standing before the last occurrence of pat,
mirroring how a greedy dot-star followed by a literal matches. -/
def lastSplit (pat : List Char) : List Char → Option (List Char)
  | [] => none
  | c :: rest =>
    match lastSplit pat rest with
    | some m => some (c :: m)
    | none => if pat.isPrefixOf (c :: rest) then some [] else none

/-- Consumes an exact literal from the front of the input. -/
def dropLiteral (lit : List Char) (s : List Char) : Option (List Char) :=
  if lit.isPrefixOf s then some (s.drop lit.length) else none

/-- Attempts, at one start position, the regex of
_catch_and_handle_oai_error: the error literal, any spaces, the code
attribute (its value is any run of non-quote characters), then a
greedy dot-star capture up to the last closing error literal on the
same line. -/
def matchErrorAt (s : List Char) : Option (String × String) :=
  match dropLiteral "<error".toList s with
  | none => none
  | some s1 =>
    let s2 := s1.dropWhile (fun c => c == ' ')
    match dropLiteral "code=\"".toList s2 with
    | none => none
    | some s3 =>
      let codeChars := s3.takeWhile (fun c => c != '"')
      match dropLiteral "\">".toList (s3.drop codeChars.length) with
      | none => none
      | some s4 =>
        let line := s4.takeWhile (fun c => c != '\n')
        match lastSplit "</error>".toList line with
        | none => none
        | some msgChars => some (codeChars.asString, msgChars.asString)

/-- Model of re.search with that pattern: tries every start position from
the left. -/
def findOaiError : List Char → Option (String × String)
  | [] => none
  | c :: rest =>
    match matchErrorAt (c :: rest) with
    | some r => some r
    | none => findOaiError rest

/-- State effect of the entry of get_page: the optional time.sleep (only
performed when the computed sleep time is truthy, that is nonzero) and
the ghost log of the request URL that get_page builds. -/
def noteRequest (st : EndpointState) (sleepTime : Int) (req_url : String) :
    EndpointState :=
  let st1 := if sleepTime ≠ 0 then
      { st with total_slept := st.total_slept + sleepTime }
    else st
  { st1 with requests := st1.requests ++ [req_url] }

/-- Endpoint.get_page.  Fuel bounds the retry recursion; each level
consumes one scripted response.  When a retried request returns a
page, the suspended outer call resumes at raw_bytes += len(data) with
data bound to that ETreeXmlDoc, and len() of it raises TypeError. -/
def getPage : Nat → EndpointState → List ServerResponse → String →
    List (String × Option String) → Option Int → Outcome ETreeXmlDoc
  | 0, _, _, _, _, _ => .fuelOut
  | fuel + 1, st, server, verb, arguments, sleepOverride =>
    let st2 := noteRequest st (sleepOverride.getD st.sleep_time)
      (st.url ++ make_querystring verb arguments)
    match server with
    | [] => .serverExhausted
    | resp :: rest =>
      match resp with
      | .err code retryAfter =>
        match handleHttpError st2 ⟨code, retryAfter⟩ with
        | .bailNow e st3 => .raised e st3 rest
        | .retry st3 wait =>
          match getPage fuel st3 rest verb arguments (some wait) with
          | .ok _page st4 rest4 => .raised .typeError st4 rest4
          | other => other
      | .ok body =>
        let st3 := { st2 with raw_bytes := st2.raw_bytes + body.length }
        let data := body
        let st4 := { st3 with data_bytes := st3.data_bytes + data.length }
        match findOaiError data.toList with
        | some cm =>
          let st5 := { st4 with oai_error := some cm }
          .raised (bailExn st5 none) st5 rest
        | none =>
          match fromstringModel data with
          | .error e => .raised e st4 rest
          | .ok tree =>
            let doc : ETreeXmlDoc := ⟨tree, st4.namespaces⟩
            let st5 := { st4 with last_page := some doc }
            .ok doc st5 rest
  termination_by structural fuel _ _ _ _ _ => fuel

/-- Endpoint.compile_data: fetches a page, extends the accumulator with
docfilter(page), then looks for oai:resumptionToken.  The token branch
evaluates rtoken.text with rtoken an ETreeXmlDoc — a class without a
text attribute — raising AttributeError, so the loop can never reach a
second iteration. -/
def compileData {α : Type} (fuel : Nat) (st : EndpointState)
    (server : List ServerResponse) (verb : String)
    (arguments : List (String × Option String))
    (docfilter : ETreeXmlDoc → List α) : Outcome (List α) :=
  match getPage fuel st server verb arguments none with
  | .fuelOut => .fuelOut
  | .serverExhausted => .serverExhausted
  | .raised e st1 rest => .raised e st1 rest
  | .ok page st1 rest =>
    let items := docfilter page
    match page.find_tag (some "oai:resumptionToken") with
    | .error e => .raised e st1 rest
    | .ok none => .ok items st1 rest
    | .ok (some _rtoken) => .raised .attributeError st1 rest

/-- Python dict.get with a default. -/
def pyDictGet (d : List (String × Option String)) (k : String)
    (default : Option String) : Option String :=
  match d.lookup k with
  | some v => v
  | none => default

/-- Harvester state: the owned Endpoint and the normalized options. -/
structure HarvesterState where
  endpoint : EndpointState
  verbose : Bool
  options : List (String × Option String)
  deriving Repr, DecidableEq

/-- Harvester.__init__ with a URL string as the endpoint argument: builds
the owned Endpoint and the normalized options dict, insertion order
metadataPrefix, from, until, set. -/
def harvesterInit (endpoint : String) (options : List (String × Option String))
    (namespaces : List (String × String)) (verbose : Bool := true) :
    HarvesterState :=
  { endpoint := endpointInit endpoint (some namespaces),
    verbose := verbose,
    options := [
      ("metadataPrefix", pyDictGet options "metadataPrefix" (some "oai_dc")),
      ("from", pyDictGet options "from" none),
      ("until", pyDictGet options "until" none),
      ("set", pyDictGet options "set" none)] }

/-- Harvester.get_record: one GetRecord page with arguments
metadataPrefix and identifier, then the first oai:record element of
that page (or none).  The metadataPrefix subscript always finds the
key because harvesterInit stores it. -/
def getRecord (fuel : Nat) (h : HarvesterState) (server : List ServerResponse)
    (identifier : String) : Outcome (Option ETreeXmlDoc) :=
  let arguments := [
    ("metadataPrefix", pyDictGet h.options "metadataPrefix" none),
    ("identifier", some identifier)]
  match getPage fuel h.endpoint server "GetRecord" arguments none with
  | .fuelOut => .fuelOut
  | .serverExhausted => .serverExhausted
  | .raised e st1 rest => .raised e st1 rest
  | .ok page st1 rest =>
    match page.find_tag (some "oai:record") with
    | .error e => .raised e st1 rest
    | .ok r => .ok r st1 rest

/-- Attribute names, in assignment order, that the non-aliasing branch of
Endpoint.__init__ sets on the new instance. -/
def endpointInitAttrNames : List String :=
  ["url", "verbose", "sleep_time", "max_recoveries", "num_recoveries",
   "raw_bytes", "data_bytes", "default_recovery_time", "http_error_class",
   "http_errors", "oai_error", "headers", "namespaces", "xml_doc_class",
   "last_page"]

/-- The argument passed to Endpoint(...): a plain URL string, or an object
carrying a set of attribute names (hasattr consults those names). -/
inductive InitArg where
  | strArg (s : String)
  | objArg (attrNames : List String)

def InitArg.hasattrUrl : InitArg → Bool
  | .strArg _ => false
  | .objArg attrs => attrs.contains "url"

/-- Attribute names present on the instance returned by Endpoint(x).
Python allocates the instance with no attributes and runs __init__ on
it; the branch taken for an endpoint-like argument executes self = x,
which rebinds only the local name self, so no assignment ever reaches
the fresh instance and it is returned attribute-less. -/
def endpointNewAttrNames (arg : InitArg) : List String :=
  if arg.hasattrUrl then [] else endpointInitAttrNames

/-- The early-returning search loop of find_tag yields the head of the
filtered traversal. -/
theorem find?_eq_head?_filter {α : Type} (p : α → Bool) (l : List α) :
    l.find? p = (l.filter p).head? := by
  induction l with
  | nil => rfl
  | cons a l ih =>
    cases h : p a with
    | true =>
      rw [List.find?_cons_of_pos _ h, List.filter_cons_of_pos h]
      rfl
    | false =>
      rw [List.find?_cons_of_neg _ (by simp [h]), List.filter_cons_of_neg (by simp [h])]
      exact ih

@[simp] theorem noteRequest_url (st : EndpointState) (t : Int) (u : String) :
    (noteRequest st t u).url = st.url := by
  simp only [noteRequest]; split <;> rfl

@[simp] theorem noteRequest_sleep_time (st : EndpointState) (t : Int) (u : String) :
    (noteRequest st t u).sleep_time = st.sleep_time := by
  simp only [noteRequest]; split <;> rfl

@[simp] theorem noteRequest_max_recoveries (st : EndpointState) (t : Int) (u : String) :
    (noteRequest st t u).max_recoveries = st.max_recoveries := by
  simp only [noteRequest]; split <;> rfl

@[simp] theorem noteRequest_num_recoveries (st : EndpointState) (t : Int) (u : String) :
    (noteRequest st t u).num_recoveries = st.num_recoveries := by
  simp only [noteRequest]; split <;> rfl

@[simp] theorem noteRequest_raw_bytes (st : EndpointState) (t : Int) (u : String) :
    (noteRequest st t u).raw_bytes = st.raw_bytes := by
  simp only [noteRequest]; split <;> rfl

@[simp] theorem noteRequest_data_bytes (st : EndpointState) (t : Int) (u : String) :
    (noteRequest st t u).data_bytes = st.data_bytes := by
  simp only [noteRequest]; split <;> rfl

@[simp] theorem noteRequest_default_recovery_time (st : EndpointState) (t : Int)
    (u : String) : (noteRequest st t u).default_recovery_time =
      st.default_recovery_time := by
  simp only [noteRequest]; split <;> rfl

@[simp] theorem noteRequest_http_errors (st : EndpointState) (t : Int) (u : String) :
    (noteRequest st t u).http_errors = st.http_errors := by
  simp only [noteRequest]; split <;> rfl

@[simp] theorem noteRequest_oai_error (st : EndpointState) (t : Int) (u : String) :
    (noteRequest st t u).oai_error = st.oai_error := by
  simp only [noteRequest]; split <;> rfl

@[simp] theorem noteRequest_namespaces (st : EndpointState) (t : Int) (u : String) :
    (noteRequest st t u).namespaces = st.namespaces := by
  simp only [noteRequest]; split <;> rfl

@[simp] theorem noteRequest_last_page (st : EndpointState) (t : Int) (u : String) :
    (noteRequest st t u).last_page = st.last_page := by
  simp only [noteRequest]; split <;> rfl

@[simp] theorem noteRequest_requests (st : EndpointState) (t : Int) (u : String) :
    (noteRequest st t u).requests = st.requests ++ [u] := by
  simp only [noteRequest]; split <;> rfl

theorem noteRequest_total_slept (st : EndpointState) (t : Int) (u : String) :
    (noteRequest st t u).total_slept =
      if t ≠ 0 then st.total_slept + t else st.total_slept := by
  simp only [noteRequest]; split <;> rfl

/-- Helper for C6: joining the kept pairs equals filterMap over values. -/
theorem map_filter_isSome_eq_filterMap (args : List (String × Option String)) :
    (args.filter (fun p => p.2.isSome)).map (fun p => p.1 ++ "=" ++ p.2.getD "") =
      args.filterMap (fun p => p.2.map (fun v => p.1 ++ "=" ++ v)) := by
  induction args with
  | nil => rfl
  | cons p ps ih =>
    cases p with
    | mk k v => cases v <;> simp [List.filter_cons, List.filterMap_cons, ih]

/-- C6: make_querystring omits null-valued arguments wherever they stand,
joins the verb pair and the remaining arguments in insertion order
with ampersands behind a question mark, and on the Harvester option
set of the example produces exactly the expected query string. -/
theorem c6_make_querystring_joins_non_null :
    (∀ (verb : String) (args1 args2 : List (String × Option String)) (k : String),
        make_querystring verb (args1 ++ (k, none) :: args2) =
          make_querystring verb (args1 ++ args2)) ∧
    (∀ (verb : String) (args : List (String × Option String)),
        make_querystring verb args =
          "?" ++ String.intercalate "&" (("verb=" ++ verb) ::
            args.filterMap (fun p => p.2.map (fun v => p.1 ++ "=" ++ v)))) ∧
    make_querystring "ListIdentifiers"
        (harvesterInit "u" [("metadataPrefix", some "untl_raw"),
          ("set", some "access_rights:public")] [("oai", "NS")]).options =
      "?verb=ListIdentifiers&metadataPrefix=untl_raw&set=access_rights:public" := by
  refine ⟨?_, ?_, ?_⟩
  · intro verb args1 args2 k
    simp only [make_querystring, List.filter_append, List.filter_cons,
      Option.isSome_none, Bool.false_eq_true, ite_false, reduceIte]
  · intro verb args
    simp only [make_querystring, List.filter_cons, Option.isSome_some, ite_true,
      reduceIte, List.map_cons, map_filter_isSome_eq_filterMap, Option.getD_some]
    rw [show "verb" ++ "=" = "verb=" from rfl]
  · rfl

/-- C10: when the argument to Endpoint.__init__ has a url attribute, the
branch self = url rebinds only the local name, so the fresh instance
is returned with no attribute set at all: no url, none of the names
the normal branch assigns — not a usable copy or alias of x. -/
theorem c10_alias_branch_sets_no_attributes (attrs : List String)
    (h : (InitArg.objArg attrs).hasattrUrl = true) :
    endpointNewAttrNames (.objArg attrs) = [] ∧
    (endpointNewAttrNames (.objArg attrs)).contains "url" = false ∧
    endpointNewAttrNames (.objArg attrs) ≠ endpointInitAttrNames := by
  refine ⟨?_, ?_, ?_⟩ <;>
    simp [endpointNewAttrNames, h, endpointInitAttrNames]

/-- Witness for C10 at a concrete endpoint-like argument. -/
theorem c10_alias_branch_sets_no_attributes_witness :
    (InitArg.objArg ["url", "headers"]).hasattrUrl = true ∧
    (endpointNewAttrNames (.objArg ["url", "headers"]) = [] ∧
     (endpointNewAttrNames (.objArg ["url", "headers"])).contains "url" = false ∧
     endpointNewAttrNames (.objArg ["url", "headers"]) ≠ endpointInitAttrNames) :=
  ⟨by decide, c10_alias_branch_sets_no_attributes ["url", "headers"] (by decide)⟩

/-- A non-503 error below the budget takes the retry branch after
incrementing max_recoveries — num_recoveries is left untouched. -/
theorem handleHttpError_non503_below_budget (st : EndpointState) (code : Nat)
    (ra : Option Int) (hc : ¬ code = 503)
    (hlt : st.num_recoveries < st.max_recoveries)
    (hdef : 0 ≤ st.default_recovery_time) :
    handleHttpError st ⟨code, ra⟩ =
      .retry { st with http_errors := st.http_errors ++ [⟨code, ra⟩],
                       max_recoveries := st.max_recoveries + 1 }
        st.default_recovery_time := by
  have h2 : ¬ (st.num_recoveries ≥ st.max_recoveries) := not_le.mpr hlt
  have h3 : ¬ (st.default_recovery_time < 0) := not_lt.mpr hdef
  simp [handleHttpError, hc, h2, h3]

/-- On every non-503 failure below the budget, _handle_http_error raises
max_recoveries instead of num_recoveries, so the bail condition
num_recoveries at least max_recoveries can never become true once it
is false: against a server that keeps failing with non-503 errors the
retry recursion consumes any fuel bound. -/
theorem getPage_allErrors_fuelOut :
    ∀ (fuel : Nat) (st : EndpointState) (server : List ServerResponse)
      (verb : String) (arguments : List (String × Option String))
      (sleepOverride : Option Int),
      st.num_recoveries < st.max_recoveries →
      0 ≤ st.default_recovery_time →
      (∀ r ∈ server, ∃ c ra, r = ServerResponse.err c ra ∧ c ≠ 503) →
      fuel ≤ server.length →
      getPage fuel st server verb arguments sleepOverride = .fuelOut := by
  intro fuel
  induction fuel with
  | zero => intro st server verb args so _ _ _ _; rfl
  | succ n ih =>
    intro st server verb args so hlt hdef hall hlen
    match server with
    | [] => simp at hlen
    | r :: rest =>
      obtain ⟨c, ra, rfl, hc⟩ := hall r (List.mem_cons_self r rest)
      have hall2 : ∀ x ∈ rest, ∃ c2 ra2, x = ServerResponse.err c2 ra2 ∧ c2 ≠ 503 :=
        fun x hx => hall x (List.mem_cons_of_mem _ hx)
      have hlen2 : n ≤ rest.length := by
        simpa using Nat.le_of_succ_le_succ hlen
      have hstep := handleHttpError_non503_below_budget
        (noteRequest st (so.getD st.sleep_time)
          (st.url ++ make_querystring verb args)) c ra hc
        (by simpa using hlt) (by simpa using hdef)
      have hrec := ih { noteRequest st (so.getD st.sleep_time)
          (st.url ++ make_querystring verb args) with
          http_errors := (noteRequest st (so.getD st.sleep_time)
            (st.url ++ make_querystring verb args)).http_errors ++ [⟨c, ra⟩],
          max_recoveries := (noteRequest st (so.getD st.sleep_time)
            (st.url ++ make_querystring verb args)).max_recoveries + 1 }
        rest verb args (some (noteRequest st (so.getD st.sleep_time)
          (st.url ++ make_querystring verb args)).default_recovery_time)
        (by simp; omega) (by simpa using hdef) hall2 hlen2
      simp only [getPage, hstep, hrec]

/-- C2: refuted on the code.  With max_recoveries = 1 and a server whose
every response is an HTTP 500, get_page does not raise EndpointError
after one recovery with two recorded errors: _handle_http_error
increments max_recoveries instead of num_recoveries, so the bail test
stays false forever and the retry recursion outruns every fuel bound
(the Python original recurses until the interpreter kills it). -/
theorem c2_recovery_budget_not_enforced (fuel : Nat) :
    getPage fuel (endpointInit "http://example.org/oai" none true 0 1)
      (List.replicate fuel (ServerResponse.err 500 none))
      "ListRecords" [] none = .fuelOut := by
  apply getPage_allErrors_fuelOut
  · decide
  · decide
  · intro r hr
    exact ⟨500, none, List.eq_of_mem_replicate hr, by decide⟩
  · simp

/-- C5: refuted on the code.  The first part exhibits the step that
destroys the claimed bound: a non-503 failure below the budget
retries with num_recoveries unchanged and max_recoveries itself
incremented.  The second part shows the consequence: from a default
construction (max_recoveries = 3), against a server that always
fails with HTTP 404, the retry loop in get_page exceeds every fuel
bound instead of being bounded by max_recoveries, and no terminal
failure state is ever entered. -/
theorem c5_retry_loop_unbounded :
    (∀ (st : EndpointState) (code : Nat) (ra : Option Int),
        ¬ code = 503 → st.num_recoveries < st.max_recoveries →
        0 ≤ st.default_recovery_time →
        handleHttpError st ⟨code, ra⟩ =
          .retry { st with http_errors := st.http_errors ++ [⟨code, ra⟩],
                           max_recoveries := st.max_recoveries + 1 }
            st.default_recovery_time) ∧
    (∀ fuel : Nat,
        getPage fuel (endpointInit "http://example.org/oai" none)
          (List.replicate fuel (ServerResponse.err 404 none))
          "ListIdentifiers" [] none = .fuelOut) := by
  constructor
  · exact handleHttpError_non503_below_budget
  · intro fuel
    apply getPage_allErrors_fuelOut
    · decide
    · decide
    · intro r hr
      exact ⟨404, none, List.eq_of_mem_replicate hr, by decide⟩
    · simp

/-- Witness for C5 at a concrete state, error and fuel. -/
theorem c5_retry_loop_unbounded_witness :
    handleHttpError (endpointInit "u" none) ⟨404, none⟩ =
      .retry { endpointInit "u" none with
               http_errors := (endpointInit "u" none).http_errors ++ [⟨404, none⟩],
               max_recoveries := (endpointInit "u" none).max_recoveries + 1 }
        (endpointInit "u" none).default_recovery_time ∧
    getPage 2 (endpointInit "http://example.org/oai" none)
      (List.replicate 2 (ServerResponse.err 404 none))
      "ListIdentifiers" [] none = .fuelOut :=
  ⟨c5_retry_loop_unbounded.1 (endpointInit "u" none) 404 none (by decide)
      (by decide) (by decide),
    c5_retry_loop_unbounded.2 2⟩

/-- C4: refuted on the code at both branches.  A 503 without Retry-After,
like one with a negative Retry-After, ends in TypeError (from _bail
joining the integer error codes), not EndpointError.  With
Retry-After 5 and a retry that succeeds, the endpoint does wait the 5
time units first, but get_page then applies len() to the document the
retried call returned and raises TypeError instead of returning the
page. -/
theorem c4_503_retry_after_handling :
    (getPage 3 (endpointInit "u" (some [("oai", "NS")]))
      [ServerResponse.err 503 none] "ListRecords" [] none).exnOf =
        some .typeError ∧
    (getPage 3 (endpointInit "u" (some [("oai", "NS")]))
      [ServerResponse.err 503 (some (-1))] "ListRecords" [] none).exnOf =
        some .typeError ∧
    (getPage 3 (endpointInit "u" (some [("oai", "NS")]))
      [ServerResponse.err 503 (some 5), ServerResponse.ok "<a></a>"]
      "ListRecords" [] none).exnOf = some .typeError ∧
    ((getPage 3 (endpointInit "u" (some [("oai", "NS")]))
      [ServerResponse.err 503 (some 5), ServerResponse.ok "<a></a>"]
      "ListRecords" [] none).stateOf).map EndpointState.total_slept = some 5 ∧
    (getPage 3 (endpointInit "u" (some [("oai", "NS")]))
      [ServerResponse.err 503 (some 5), ServerResponse.ok "<a></a>"]
      "ListRecords" [] none).valOf = none := by
  refine ⟨?_, ?_, ?_, ?_, ?_⟩ <;> decide

/-- C1: refuted on the code.  On the first page that carries a
resumption-token element, compile_data evaluates rtoken.text with
rtoken an ETreeXmlDoc — a class that has no text attribute — so the
harvest raises AttributeError instead of issuing the next request
with resumptionToken=abc: the second scripted page stays unread. -/
theorem c1_compile_data_crashes_on_token_page :
    (compileData 50 (endpointInit "u" (some [("oai", "NS")]))
      [ServerResponse.ok "<\x7bNS\x7dresumptionToken>abc</\x7bNS\x7dresumptionToken>",
       ServerResponse.ok "<a></a>"]
      "ListIdentifiers" [] (fun _ => ([] : List String))).exnOf =
        some .attributeError ∧
    (compileData 50 (endpointInit "u" (some [("oai", "NS")]))
      [ServerResponse.ok "<\x7bNS\x7dresumptionToken>abc</\x7bNS\x7dresumptionToken>",
       ServerResponse.ok "<a></a>"]
      "ListIdentifiers" [] (fun _ => ([] : List String))).restOf =
        some [ServerResponse.ok "<a></a>"] := by
  constructor <;> decide

/-- C3: a response body carrying an inline protocol error marker makes
get_page record the protocol error and raise EndpointError whose
message preserves the code and the message; exactly one request is
issued and the remaining scripted responses stay untouched (never
retried).  The accumulated HTTP error list must be empty here — with
earlier HTTP errors on record, _bail dies formatting their integer
codes before reaching its raise. -/
theorem c3_oai_error_is_fatal_never_retried (fuel : Nat) (st : EndpointState)
    (body code msg verb : String) (arguments : List (String × Option String))
    (extra : List ServerResponse)
    (hclean : st.http_errors = [])
    (hfind : findOaiError body.toList = some (code, msg)) :
    (getPage (fuel + 1) st (ServerResponse.ok body :: extra)
        verb arguments none).exnOf =
      some (.endpointError
        ("Encountered fatal errors while contacting the OAI server." ++
          " OAI Error: code=" ++ code ++ " \x27" ++ msg ++ "\x27")) ∧
    (getPage (fuel + 1) st (ServerResponse.ok body :: extra)
        verb arguments none).restOf = some extra ∧
    ((getPage (fuel + 1) st (ServerResponse.ok body :: extra)
        verb arguments none).stateOf).map EndpointState.oai_error =
      some (some (code, msg)) ∧
    ((getPage (fuel + 1) st (ServerResponse.ok body :: extra)
        verb arguments none).stateOf).map EndpointState.requests =
      some (st.requests ++ [st.url ++ make_querystring verb arguments]) := by
  simp only [getPage, hfind, bailExn]
  refine ⟨?_, ?_, ?_, ?_⟩ <;>
    simp [Outcome.exnOf, Outcome.restOf, Outcome.stateOf, hclean,
      ← String.append_assoc]

/-- Witness for C3 at a concrete body and endpoint. -/
theorem c3_oai_error_is_fatal_never_retried_witness :
    (endpointInit "u" none).http_errors = [] ∧
    findOaiError "<error code=\"badArgument\">Bad argument</error>".toList =
      some ("badArgument", "Bad argument") ∧
    ((getPage 1 (endpointInit "u" none)
        [ServerResponse.ok "<error code=\"badArgument\">Bad argument</error>"]
        "GetRecord" [] none).exnOf =
      some (.endpointError
        ("Encountered fatal errors while contacting the OAI server." ++
          " OAI Error: code=" ++ "badArgument" ++ " \x27" ++ "Bad argument" ++
          "\x27")) ∧
     (getPage 1 (endpointInit "u" none)
        [ServerResponse.ok "<error code=\"badArgument\">Bad argument</error>"]
        "GetRecord" [] none).restOf = some [] ∧
     ((getPage 1 (endpointInit "u" none)
        [ServerResponse.ok "<error code=\"badArgument\">Bad argument</error>"]
        "GetRecord" [] none).stateOf).map EndpointState.oai_error =
      some (some ("badArgument", "Bad argument")) ∧
     ((getPage 1 (endpointInit "u" none)
        [ServerResponse.ok "<error code=\"badArgument\">Bad argument</error>"]
        "GetRecord" [] none).stateOf).map EndpointState.requests =
      some ((endpointInit "u" none).requests ++
        [(endpointInit "u" none).url ++ make_querystring "GetRecord" []])) :=
  ⟨rfl, by decide,
    c3_oai_error_is_fatal_never_retried 0 (endpointInit "u" none)
      "<error code=\"badArgument\">Bad argument</error>" "badArgument"
      "Bad argument" "GetRecord" [] [] rfl (by decide)⟩

/-- Strings rebuilt from their character lists are themselves. -/
theorem toList_asString_self (s : String) : s.toList.asString = s := rfl

/-- C7: find_tag on a prefix:local tag fails with the unknown-namespace
ValueError when the prefix is not registered (findall_tag likewise);
with the prefix registered, find_tag returns the first element in
document order whose expanded tag matches and whose text matches when
given (none when no element matches), and findall_tag returns exactly
the matching elements in document order, empty when there are none. -/
theorem c7_find_by_qualified_tag (doc : ETreeXmlDoc) (tag pfx fld : String)
    (text : Option String)
    (hcolon : tag.toList.contains ':' = true)
    (hsplit : splitOnColon tag.toList = [pfx.toList, fld.toList]) :
    (doc.namespaces.lookup pfx = none →
      doc.find_tag (some tag) text =
        .error (.valueError ("Unknown namespace prefix in \x27" ++ tag ++ "\x27")) ∧
      doc.findall_tag (some tag) text =
        .error (.valueError ("Unknown namespace prefix in \x27" ++ tag ++ "\x27"))) ∧
    (∀ uri, doc.namespaces.lookup pfx = some uri →
      (doc.find_tag (some tag) text = .ok
        ((((doc.root.iterAll).filter
            (tagTextMatch (some (lbrace ++ uri ++ rbrace ++ fld)) text)).head?).map
          (fun el => ⟨el, doc.namespaces⟩)) ∧
       ((∀ el ∈ doc.root.iterAll,
           tagTextMatch (some (lbrace ++ uri ++ rbrace ++ fld)) text el = false) →
         doc.find_tag (some tag) text = .ok none) ∧
       doc.findall_tag (some tag) text = .ok
        (((doc.root.iterAll).filter
            (tagTextMatch (some (lbrace ++ uri ++ rbrace ++ fld)) text)).map
          (fun el => ⟨el, doc.namespaces⟩)) ∧
       (((doc.root.iterAll).filter
            (tagTextMatch (some (lbrace ++ uri ++ rbrace ++ fld)) text)) = [] →
         doc.findall_tag (some tag) text = .ok []))) := by
  have hexp : doc.expand_tagname (some tag) =
      (match doc.namespaces.lookup pfx with
       | some ns => Except.ok (some (lbrace ++ ns ++ rbrace ++ fld))
       | none => Except.error (.valueError
           ("Unknown namespace prefix in \x27" ++ tag ++ "\x27"))) := by
    simp only [ETreeXmlDoc.expand_tagname]
    rw [hcolon, hsplit]
    rfl
  constructor
  · intro hnone
    constructor
    · unfold ETreeXmlDoc.find_tag
      rw [hexp, hnone]
    · unfold ETreeXmlDoc.findall_tag
      rw [hexp, hnone]
  · intro uri huri
    have hfind : doc.find_tag (some tag) text = .ok
        (((doc.root.iterAll).find?
            (tagTextMatch (some (lbrace ++ uri ++ rbrace ++ fld)) text)).map
          (fun el => ⟨el, doc.namespaces⟩)) := by
      unfold ETreeXmlDoc.find_tag
      rw [hexp, huri]
    have hfindall : doc.findall_tag (some tag) text = .ok
        (((doc.root.iterAll).filter
            (tagTextMatch (some (lbrace ++ uri ++ rbrace ++ fld)) text)).map
          (fun el => ⟨el, doc.namespaces⟩)) := by
      unfold ETreeXmlDoc.findall_tag
      rw [hexp, huri]
    refine ⟨?_, ?_, ?_, ?_⟩
    · rw [hfind, find?_eq_head?_filter]
    · intro hnomatch
      have hnil : (doc.root.iterAll).filter
          (tagTextMatch (some (lbrace ++ uri ++ rbrace ++ fld)) text) = [] := by
        apply List.filter_eq_nil_iff.mpr
        intro el hel
        simp [hnomatch el hel]
      rw [hfind, find?_eq_head?_filter, hnil]
      rfl
    · exact hfindall
    · intro hempty
      rw [hfindall, hempty]
      rfl

/-- Witness for C7: a document with two matching identifier elements, a
text-filtered search, and an unregistered prefix. -/
theorem c7_find_by_qualified_tag_witness :
    ("oai:identifier").toList.contains ':' = true ∧
    splitOnColon ("oai:identifier").toList =
      ["oai".toList, "identifier".toList] ∧
    ((ETreeXmlDoc.mk
        (XmlElem.mk "root" none none
          [XmlElem.mk "\x7bNS\x7didentifier" (some "a") none [],
           XmlElem.mk "\x7bNS\x7didentifier" (some "b") none []])
        [("oai", "NS")]).find_tag (some "oai:identifier") none = .ok
      (some (ETreeXmlDoc.mk (XmlElem.mk "\x7bNS\x7didentifier" (some "a") none [])
        [("oai", "NS")])) ∧
     (ETreeXmlDoc.mk
        (XmlElem.mk "root" none none
          [XmlElem.mk "\x7bNS\x7didentifier" (some "a") none [],
           XmlElem.mk "\x7bNS\x7didentifier" (some "b") none []])
        [("oai", "NS")]).findall_tag (some "oai:identifier") none = .ok
      [ETreeXmlDoc.mk (XmlElem.mk "\x7bNS\x7didentifier" (some "a") none [])
         [("oai", "NS")],
       ETreeXmlDoc.mk (XmlElem.mk "\x7bNS\x7didentifier" (some "b") none [])
         [("oai", "NS")]] ∧
     (ETreeXmlDoc.mk (XmlElem.mk "root" none none []) [("oai", "NS")]).find_tag
        (some "oai:identifier") none = .ok none ∧
     (ETreeXmlDoc.mk (XmlElem.mk "root" none none []) [("oai", "NS")]).findall_tag
        (some "oai:identifier") none = .ok [] ∧
     (ETreeXmlDoc.mk (XmlElem.mk "root" none none []) []).find_tag
        (some "oai:identifier") none =
      .error (.valueError
        ("Unknown namespace prefix in \x27" ++ "oai:identifier" ++ "\x27"))) := by
  refine ⟨by decide, by decide, ?_, ?_, ?_, ?_, ?_⟩
  · have h := (c7_find_by_qualified_tag
      (ETreeXmlDoc.mk
        (XmlElem.mk "root" none none
          [XmlElem.mk "\x7bNS\x7didentifier" (some "a") none [],
           XmlElem.mk "\x7bNS\x7didentifier" (some "b") none []])
        [("oai", "NS")]) "oai:identifier" "oai" "identifier" none
      (by decide) (by decide)).2 "NS" (by decide)
    rw [h.1]
    decide
  · have h := (c7_find_by_qualified_tag
      (ETreeXmlDoc.mk
        (XmlElem.mk "root" none none
          [XmlElem.mk "\x7bNS\x7didentifier" (some "a") none [],
           XmlElem.mk "\x7bNS\x7didentifier" (some "b") none []])
        [("oai", "NS")]) "oai:identifier" "oai" "identifier" none
      (by decide) (by decide)).2 "NS" (by decide)
    rw [h.2.2.1]
    decide
  · have h := (c7_find_by_qualified_tag
      (ETreeXmlDoc.mk (XmlElem.mk "root" none none []) [("oai", "NS")])
      "oai:identifier" "oai" "identifier" none (by decide) (by decide)).2
      "NS" (by decide)
    exact h.2.1 (by decide)
  · have h := (c7_find_by_qualified_tag
      (ETreeXmlDoc.mk (XmlElem.mk "root" none none []) [("oai", "NS")])
      "oai:identifier" "oai" "identifier" none (by decide) (by decide)).2
      "NS" (by decide)
    exact h.2.2.2 (by decide)
  · exact ((c7_find_by_qualified_tag
      (ETreeXmlDoc.mk (XmlElem.mk "root" none none []) [])
      "oai:identifier" "oai" "identifier" none (by decide) (by decide)).1
      (by decide)).1

/-- Successful one-request run of get_page: no HTTP error, no protocol
error marker, a parseable body; the page wraps the parsed tree with
the endpoint's namespaces, counters advance, and exactly one response
is consumed. -/
theorem getPage_ok (fuel : Nat) (st : EndpointState) (body : String)
    (extra : List ServerResponse) (verb : String)
    (arguments : List (String × Option String)) (tree : XmlElem)
    (hoai : findOaiError body.toList = none)
    (hparse : fromstringModel body = .ok tree) :
    getPage (fuel + 1) st (ServerResponse.ok body :: extra) verb arguments none =
      .ok ⟨tree, st.namespaces⟩
        { noteRequest st st.sleep_time (st.url ++ make_querystring verb arguments) with
          raw_bytes := st.raw_bytes + body.length,
          data_bytes := st.data_bytes + body.length,
          last_page := some ⟨tree, st.namespaces⟩ }
        extra := by
  simp only [getPage, Option.getD_none, hoai, hparse]
  simp

/-- C8: get_record issues one GetRecord request whose argument set is
exactly metadataPrefix and identifier, consumes exactly one page (the
remaining scripted responses stay untouched: no pagination, no
resumption-token following), and returns the first oai:record element
of that page in document order — none when the page has no record
element. -/
theorem c8_get_record_single_page (fuel : Nat) (url identifier body : String)
    (opts : List (String × Option String)) (ns : List (String × String))
    (uri : String) (verbose : Bool) (tree : XmlElem) (extra : List ServerResponse)
    (hns : ns.lookup "oai" = some uri)
    (hoai : findOaiError body.toList = none)
    (hparse : fromstringModel body = .ok tree) :
    (getRecord (fuel + 1) (harvesterInit url opts ns verbose)
        (ServerResponse.ok body :: extra) identifier).restOf = some extra ∧
    (getRecord (fuel + 1) (harvesterInit url opts ns verbose)
        (ServerResponse.ok body :: extra) identifier).valOf =
      some ((((tree.iterAll).filter
          (tagTextMatch (some (lbrace ++ uri ++ rbrace ++ "record")) none)).head?).map
        (fun el => ⟨el, ns⟩)) ∧
    ((getRecord (fuel + 1) (harvesterInit url opts ns verbose)
        (ServerResponse.ok body :: extra) identifier).stateOf).map
        EndpointState.requests =
      some [url ++ make_querystring "GetRecord"
        [("metadataPrefix", pyDictGet opts "metadataPrefix" (some "oai_dc")),
         ("identifier", some identifier)]] := by
  have hnsE : (harvesterInit url opts ns verbose).endpoint.namespaces = ns := by
    simp [harvesterInit, endpointInit, hns]
  have hmp : pyDictGet (harvesterInit url opts ns verbose).options
      "metadataPrefix" none = pyDictGet opts "metadataPrefix" (some "oai_dc") := rfl
  have hexp2 : (ETreeXmlDoc.mk tree ns).expand_tagname (some "oai:record") =
      .ok (some (lbrace ++ uri ++ rbrace ++ "record")) := by
    simp only [ETreeXmlDoc.expand_tagname]
    rw [show ("oai:record").toList.contains ':' = true from by decide]
    rw [show splitOnColon ("oai:record").toList =
      ["oai".toList, "record".toList] from by decide]
    simp only [toList_asString_self]
    rw [hns]
    simp
  have hft : (ETreeXmlDoc.mk tree ns).find_tag (some "oai:record") none = .ok
      ((((tree.iterAll).filter
          (tagTextMatch (some (lbrace ++ uri ++ rbrace ++ "record")) none)).head?).map
        (fun el => ⟨el, ns⟩)) := by
    simp only [ETreeXmlDoc.find_tag, hexp2, find?_eq_head?_filter]
  have hok := getPage_ok fuel (harvesterInit url opts ns verbose).endpoint body
    extra "GetRecord"
    [("metadataPrefix",
      pyDictGet (harvesterInit url opts ns verbose).options "metadataPrefix" none),
     ("identifier", some identifier)] tree hoai hparse
  rw [hnsE] at hok
  simp only [getRecord, hok, hft, Outcome.restOf, Outcome.valOf, Outcome.stateOf,
    Option.map_some]
  simp [hmp, harvesterInit, endpointInit]
  rfl

/-- Witness for C8 at a concrete harvester and a concrete one-record page. -/
theorem c8_get_record_single_page_witness :
    ([("oai", "NS")] : List (String × String)).lookup "oai" = some "NS" ∧
    findOaiError "<\x7bNS\x7drecord>r</\x7bNS\x7drecord>".toList = none ∧
    fromstringModel "<\x7bNS\x7drecord>r</\x7bNS\x7drecord>" =
      .ok (XmlElem.mk "\x7bNS\x7drecord" (some "r") none []) ∧
    ((getRecord 1 (harvesterInit "u" [("metadataPrefix", some "untl_raw")]
          [("oai", "NS")] true)
        [ServerResponse.ok "<\x7bNS\x7drecord>r</\x7bNS\x7drecord>"]
        "id1").restOf = some [] ∧
     (getRecord 1 (harvesterInit "u" [("metadataPrefix", some "untl_raw")]
          [("oai", "NS")] true)
        [ServerResponse.ok "<\x7bNS\x7drecord>r</\x7bNS\x7drecord>"]
        "id1").valOf =
      some (((((XmlElem.mk "\x7bNS\x7drecord" (some "r") none []).iterAll).filter
          (tagTextMatch (some (lbrace ++ "NS" ++ rbrace ++ "record")) none)).head?).map
        (fun el => ⟨el, [("oai", "NS")]⟩)) ∧
     ((getRecord 1 (harvesterInit "u" [("metadataPrefix", some "untl_raw")]
          [("oai", "NS")] true)
        [ServerResponse.ok "<\x7bNS\x7drecord>r</\x7bNS\x7drecord>"]
        "id1").stateOf).map EndpointState.requests =
      some ["u" ++ make_querystring "GetRecord"
        [("metadataPrefix",
          pyDictGet [("metadataPrefix", some "untl_raw")] "metadataPrefix"
            (some "oai_dc")),
         ("identifier", some "id1")]]) :=
  ⟨by decide, by decide, by decide,
    c8_get_record_single_page 0 "u" "id1" "<\x7bNS\x7drecord>r</\x7bNS\x7drecord>"
      [("metadataPrefix", some "untl_raw")] [("oai", "NS")] "NS" true
      (XmlElem.mk "\x7bNS\x7drecord" (some "r") none []) [] (by decide) (by decide)
      (by decide)⟩

theorem mem_escapeChar_ne_lt (c x : Char) (hx : x ∈ escapeChar c) : ¬ x = '<' := by
  unfold escapeChar at hx
  split at hx
  · rw [show "&amp;".toList = [ '&', 'a', 'm', 'p', ';' ] from rfl] at hx
    simp at hx
    rcases hx with h | h | h | h | h <;> subst h <;> decide
  · split at hx
    · rw [show "&lt;".toList = [ '&', 'l', 't', ';' ] from rfl] at hx
      simp at hx
      rcases hx with h | h | h | h <;> subst h <;> decide
    · split at hx
      · rw [show "&gt;".toList = [ '&', 'g', 't', ';' ] from rfl] at hx
        simp at hx
        rcases hx with h | h | h | h <;> subst h <;> decide
      · simp at hx
        subst hx
        assumption

theorem escapeText_ne_lt (T : List Char) : ∀ x ∈ escapeText T, ¬ x = '<' := by
  intro x hx
  unfold escapeText at hx
  rw [List.mem_flatMap] at hx
  obtain ⟨c, _, hc⟩ := hx
  exact mem_escapeChar_ne_lt c x hc

theorem takeWhile_append_cons (p : Char → Bool) (xs : List Char) (y : Char)
    (ys : List Char) (hxs : ∀ x ∈ xs, p x = true) (hy : p y = false) :
    (xs ++ y :: ys).takeWhile p = xs := by
  induction xs with
  | nil => simp [List.takeWhile_cons, hy]
  | cons a as ih =>
    have ha : p a = true := hxs a (by simp)
    simp [List.takeWhile_cons, ha]
    exact ih (fun x hx => hxs x (by simp [hx]))

theorem unescapeText_cons_ne (c : Char) (rest : List Char) (h : ¬ c = '&') :
    unescapeText (c :: rest) = (unescapeText rest).map (fun t => c :: t) := by
  conv_lhs => unfold unescapeText
  simp [h]

theorem unescapeText_escapeText (T : List Char) :
    unescapeText (escapeText T) = some T := by
  induction T with
  | nil => rfl
  | cons c T ih =>
    have hstep : escapeText (c :: T) = escapeChar c ++ escapeText T := by
      simp [escapeText]
    rw [hstep]
    by_cases h1 : c = '&'
    · subst h1
      show unescapeText ('&' :: 'a' :: 'm' :: 'p' :: ';' :: escapeText T) = _
      simp [unescapeText, ih]
    · by_cases h2 : c = '<'
      · subst h2
        show unescapeText ('&' :: 'l' :: 't' :: ';' :: escapeText T) = _
        simp [unescapeText, ih]
      · by_cases h3 : c = '>'
        · subst h3
          show unescapeText ('&' :: 'g' :: 't' :: ';' :: escapeText T) = _
          simp [unescapeText, ih]
        · rw [show escapeChar c = [c] from by simp [escapeChar, h1, h2, h3]]
          show unescapeText (c :: escapeText T) = _
          rw [unescapeText_cons_ne c _ h1, ih]
          rfl

theorem serList_cons_append (ts : List XmlElem) (r : List Char) :
    ∃ z, serList ts ++ '<' :: r = '<' :: z := by
  cases ts with
  | nil => exact ⟨r, rfl⟩
  | cons e es =>
    cases e with
    | mk tag text tail children =>
      simp only [serList, serCore, List.append_assoc, List.cons_append,
        List.nil_append]
      exact ⟨_, rfl⟩

theorem takeWhile_text_escape (T Z : List Char) (hz : ∃ z, Z = '<' :: z) :
    (escapeText T ++ Z).takeWhile (fun d => d != '<') = escapeText T := by
  obtain ⟨z, rfl⟩ := hz
  apply takeWhile_append_cons
  · intro x hx
    have hne := escapeText_ne_lt T x hx
    simp [hne]
  · decide

theorem isPrefixOf_append_self (l r : List Char) : l.isPrefixOf (l ++ r) = true := by
  induction l with
  | nil => simp
  | cons a as ih => simp [List.isPrefixOf, ih]

theorem validTag_destruct (s : String) (h : validTag s = true) :
    ∃ c cs, s.toList = c :: cs ∧ ¬ c = '/' ∧
      ∀ x ∈ s.toList, isNameChar x = true := by
  unfold validTag at h
  cases hEq : s.toList with
  | nil => rw [hEq] at h; simp at h
  | cons c cs =>
    rw [hEq] at h
    rw [Bool.and_eq_true] at h
    obtain ⟨hc, hall⟩ := h
    refine ⟨c, cs, rfl, ?_, ?_⟩
    · simpa using hc
    · simpa [List.all_eq_true] using hall

theorem sizeL_pos (ts : List XmlElem) : 1 ≤ sizeL ts := by
  cases ts with
  | nil => simp [sizeL]
  | cons e es => simp [sizeL]; omega

mutual

theorem sizeE_succ_le_length_ser : ∀ (t : XmlElem),
    sizeE t + 1 ≤ (serCore t).length
  | .mk tag text tail children => by
    have h := sizeL_le_length_ser children
    simp [serCore, sizeE, List.length_append]
    omega

theorem sizeL_le_length_ser : ∀ (ts : List XmlElem),
    sizeL ts ≤ (serList ts).length + 1
  | [] => by simp [sizeL, serList]
  | e :: es => by
    have h1 := sizeE_succ_le_length_ser e
    have h2 := sizeL_le_length_ser es
    simp [sizeL, serList, List.length_append]
    omega

end

mutual

theorem wf_mem_iterAll : ∀ (t : XmlElem), wfElem t = true →
    ∀ e ∈ t.iterAll, wfElem e = true
  | .mk tag text tail children => by
    intro hwf e he
    rw [XmlElem.iterAll] at he
    rcases List.mem_cons.mp he with rfl | hmem
    · exact hwf
    · have hchildren : wfList children = true := by
        unfold wfElem at hwf
        rw [Bool.and_eq_true, Bool.and_eq_true, Bool.and_eq_true] at hwf
        exact hwf.2
      exact wf_mem_iterAllList children hchildren e hmem

theorem wf_mem_iterAllList : ∀ (ts : List XmlElem), wfList ts = true →
    ∀ e ∈ iterAllList ts, wfElem e = true
  | [] => by
    intro _ e he
    rw [iterAllList] at he
    cases he
  | t :: ts => by
    intro hwf e he
    have hwf2 : wfElem t = true ∧ wfList ts = true := by
      unfold wfList at hwf
      rw [Bool.and_eq_true] at hwf
      exact hwf
    rw [iterAllList] at he
    rcases List.mem_append.mp he with h1 | h2
    · exact wf_mem_iterAll t hwf2.1 e h1
    · exact wf_mem_iterAllList ts hwf2.2 e h2

end

theorem textResult_eq (text : Option String) (h : (text != some "") = true) :
    (if ((text.getD "").toList).isEmpty = true then none
     else some (text.getD "")) = text := by
  cases text with
  | none => rfl
  | some s =>
    cases s with
    | mk data =>
      cases data with
      | nil => simp at h
      | cons a as => rfl

mutual

theorem parseElem_serCore : ∀ (t : XmlElem), wfElem t = true →
    ∀ (fuel : Nat) (rest : List Char), sizeE t ≤ fuel →
      parseElem fuel (serCore t ++ rest) = some (t.withTail none, rest)
  | .mk tag text tail children => by
    intro hwf fuel rest hfuel
    have hwfparts : validTag tag = true ∧ (text != some "") = true ∧
        wfList children = true := by
      unfold wfElem at hwf
      rw [Bool.and_eq_true, Bool.and_eq_true, Bool.and_eq_true] at hwf
      exact ⟨hwf.1.1.1, hwf.1.1.2, hwf.2⟩
    obtain ⟨htag, htext, hchildren⟩ := hwfparts
    obtain ⟨c0, cs0, htl, hc0, hname⟩ := validTag_destruct tag htag
    rw [show sizeE (XmlElem.mk tag text tail children) = 1 + sizeL children
      from by simp [sizeE]] at hfuel
    cases fuel with
    | zero =>
      exfalso
      have := sizeL_pos children
      omega
    | succ f =>
      have hser : serCore (XmlElem.mk tag text tail children) ++ rest =
          '<' :: (tag.toList ++ '>' ::
            (escapeText ((text.getD "").toList) ++
              (serList children ++ '<' :: '/' :: (tag.toList ++ '>' :: rest)))) := by
        simp [serCore]
      rw [hser]
      have htake := takeWhile_append_cons isNameChar tag.toList '>'
        (escapeText ((text.getD "").toList) ++
          (serList children ++ '<' :: '/' :: (tag.toList ++ '>' :: rest)))
        hname (by decide)
      have hne : tag.toList.isEmpty = false := by rw [htl]; rfl
      have htakeT := takeWhile_text_escape ((text.getD "").toList)
        (serList children ++ '<' :: '/' :: (tag.toList ++ '>' :: rest))
        (serList_cons_append children ('/' :: (tag.toList ++ '>' :: rest)))
      have hpc := parseChildren_serList children hchildren f
        (tag.toList ++ '>' :: rest) (by omega)
      simp only [parseElem, htake, hne, Bool.false_eq_true, reduceIte, htakeT,
        List.drop_left, unescapeText_escapeText, hpc, isPrefixOf_append_self,
        toList_asString_self, XmlElem.withTail]
      rw [textResult_eq text htext]

theorem parseChildren_serList : ∀ (ts : List XmlElem), wfList ts = true →
    ∀ (fuel : Nat) (r : List Char), sizeL ts ≤ fuel →
      parseChildren fuel (serList ts ++ '<' :: '/' :: r) =
        some (ts, '<' :: '/' :: r)
  | [] => by
    intro _ fuel r hfuel
    rw [show sizeL [] = 1 from rfl] at hfuel
    cases fuel with
    | zero => omega
    | succ f =>
      rw [show serList [] = [] from rfl, List.nil_append]
      simp [parseChildren]
  | (.mk tag2 text2 tail2 cs2) :: es => by
    intro hwf fuel r hfuel
    have hwf2 : wfElem (XmlElem.mk tag2 text2 tail2 cs2) = true ∧
        wfList es = true := by
      unfold wfList at hwf
      rw [Bool.and_eq_true] at hwf
      exact hwf
    have hwfe := hwf2.1
    unfold wfElem at hwfe
    rw [Bool.and_eq_true, Bool.and_eq_true, Bool.and_eq_true] at hwfe
    have htag2 : validTag tag2 = true := hwfe.1.1.1
    have htail2 : (tail2 != some "") = true := hwfe.1.2
    obtain ⟨c0, cs0, htl2, hc0, hname2⟩ := validTag_destruct tag2 htag2
    rw [show sizeL ((XmlElem.mk tag2 text2 tail2 cs2) :: es) =
      1 + sizeE (XmlElem.mk tag2 text2 tail2 cs2) + sizeL es
      from by simp [sizeL]] at hfuel
    cases fuel with
    | zero =>
      exfalso
      omega
    | succ f =>
      rw [show serList ((XmlElem.mk tag2 text2 tail2 cs2) :: es) =
        serCore (XmlElem.mk tag2 text2 tail2 cs2) ++
          escapeText ((tail2.getD "").toList) ++ serList es from rfl,
        List.append_assoc, List.append_assoc]
      have hE : serCore (XmlElem.mk tag2 text2 tail2 cs2) ++
          (escapeText ((tail2.getD "").toList) ++
            (serList es ++ '<' :: '/' :: r)) =
          '<' :: c0 :: (cs0 ++ '>' ::
            (escapeText ((text2.getD "").toList) ++
              (serList cs2 ++ '<' :: '/' :: (tag2.toList ++ '>' ::
                (escapeText ((tail2.getD "").toList) ++
                  (serList es ++ '<' :: '/' :: r)))))) := by
        have htl2d : tag2.data = c0 :: cs0 := htl2
        simp [serCore, htl2, htl2d]
      rw [hE]
      have hA := parseElem_serCore (XmlElem.mk tag2 text2 tail2 cs2) hwf2.1 f
        (escapeText ((tail2.getD "").toList) ++ (serList es ++ '<' :: '/' :: r))
        (by omega)
      rw [hE] at hA
      have htailTake := takeWhile_text_escape ((tail2.getD "").toList)
        (serList es ++ '<' :: '/' :: r)
        (serList_cons_append es ('/' :: r))
      have hB := parseChildren_serList es hwf2.2 f r (by omega)
      simp only [parseChildren, hc0, reduceIte, hA, XmlElem.withTail, htailTake,
        List.drop_left, unescapeText_escapeText, hB, toList_asString_self]
      rw [textResult_eq tail2 htail2]

end

end UntdlHarvest
